import Mathlib

/-!
Verification development for the Ragas-Eval-Web pipeline.

The definitions below are a shallow embedding of the Python sources:
src/app.py (checkpoint store, merge-on-load, task building, orchestration,
alignment filter, evaluation entry), src/evaluate_dataset.py (retry/backoff
executor and chunked evaluation) and src/convert_to_ragas_formats.py
(passage extraction).  Pandas cells are modelled as Option String where
none stands for NaN; Python str() of NaN is the string nan; blankness is
emptiness after strip.  Python whitespace classes and the word class of the
source regexes are modelled on the character ranges the repository actually
uses (Char.isWhitespace and alphanumeric or underscore).
-/

namespace RagasEval

/-- Strip leading and trailing whitespace from a character list
(Python str.strip). -/
def trimChars (l : List Char) : List Char :=
  ((l.dropWhile Char.isWhitespace).reverse.dropWhile Char.isWhitespace).reverse

/-- Python str.strip on strings, via the character list so that concrete
instances reduce in the kernel. -/
def pyStrip (s : String) : String := String.mk (trimChars s.data)

/-- Python str.lower on strings, via the character list. -/
def pyLower (s : String) : String := String.mk (s.data.map Char.toLower)

/-- A pandas cell: none models NaN, some s a string cell. -/
abbrev Cell := Option String

/-- Python str() applied to a cell: NaN prints as the string nan. -/
def cellStr : Cell → String
  | none => "nan"
  | some s => s

/-- The blankness test the sources use: pd.isna or str().strip() empty. -/
def cellBlank : Cell → Bool
  | none => true
  | some s => pyStrip s = ""

/-- One dataframe row restricted to the four essential columns of the
pipeline (question, AI answer, reference document, contexts blob). -/
structure Row where
  question : Cell
  answer : Cell
  reference : Cell
  contexts : Cell
deriving Repr, DecidableEq

/-! ### String helpers mirroring the Python regex operations -/

/-- The word-character class of the source regexes on the range the
repository exercises: alphanumeric or underscore. -/
def isWordChar (c : Char) : Bool := c.isAlphanum || c = '_'

/-- Collapse every maximal whitespace run to a single space
(the re.sub of a whitespace-plus pattern with a space replacement). -/
def collapseWs : List Char → List Char
  | [] => []
  | c :: rest =>
    if c.isWhitespace then ' ' :: collapseWs (rest.dropWhile Char.isWhitespace)
    else c :: collapseWs rest
termination_by l => l.length
decreasing_by
  · exact Nat.lt_succ_of_le (List.dropWhile_sublist (l := rest) (p := Char.isWhitespace)).length_le
  · exact Nat.lt_succ_self _

/-- Split a character list on the two-newline separator, leftmost and
non-overlapping (Python str.split on a blank-line separator). -/
def splitOnBlankLine : List Char → List (List Char)
  | [] => [[]]
  | '\n' :: '\n' :: rest => [] :: splitOnBlankLine rest
  | c :: rest =>
    match splitOnBlankLine rest with
    | [] => [[c]]
    | h :: t => (c :: h) :: t

/-- Does the character list contain the pattern as a contiguous sublist. -/
def containsList (text pat : List Char) : Bool :=
  match text with
  | [] => pat.isEmpty
  | _ :: rest => pat.isPrefixOf text || containsList rest pat

/-- Substring test on strings (the Python in operator on str). -/
def containsSub (s pat : String) : Bool := containsList s.data pat.data

/-- The bracketed-name fragment of the chunk regex: one or more
non-bracket characters, then a dot, then one or more word characters.
Equivalently: the suffix after the last dot is a non-empty run of word
characters and something non-empty precedes that dot. -/
def validFilename (t : List Char) : Bool :=
  let r := t.reverse
  let w := r.takeWhile isWordChar
  let rest := r.drop w.length
  (decide (w ≠ [])) &&
    (match rest with
     | '.' :: u => decide (u ≠ [])
     | _ => false)

/-- Scan to the first closing bracket; return the characters before it and
the remainder after it. -/
def splitAtRBracket : List Char → Option (List Char × List Char)
  | [] => none
  | c :: rest =>
    if c = ']' then some ([], rest)
    else
      match splitAtRBracket rest with
      | some (a, b) => some (c :: a, b)
      | none => none

/-- Does the list start with a valid bracketed file-name header followed by
a colon (the lookahead alternative of the chunk regex). -/
def headerHere (l : List Char) : Bool :=
  match l with
  | '[' :: rest =>
    match splitAtRBracket rest with
    | some (t, after) =>
      validFilename t &&
        (match after with
         | ':' :: _ => true
         | _ => false)
    | none => false
  | _ => false

/-- The zero-width lookahead closing a chunk match: either a newline
followed by the next header, or the end of the text (a Python dollar
anchor also matches just before one trailing newline). -/
def lookaheadOk (l : List Char) : Bool :=
  match l with
  | [] => true
  | ['\n'] => true
  | '\n' :: rest => headerHere rest
  | _ => false

/-- Lazily take content characters (anything but an opening bracket) until
the lookahead succeeds; fail if an opening bracket is reached first.
Returns the content and the remainder at the match end. -/
def matchContent : List Char → Option (List Char × List Char)
  | [] => some ([], [])
  | c :: rest =>
    if lookaheadOk (c :: rest) then some ([], c :: rest)
    else if c = '[' then none
    else (matchContent rest).map (fun p => (c :: p.1, p.2))

/-- Remainders obtainable by consuming a whitespace prefix that ends at a
newline, ordered from the shortest consumption to the longest (the
whitespace-star-newline fragment; reversing gives greedy order). -/
def nlRemainders : List Char → List (List Char)
  | [] => []
  | c :: rest =>
    if c.isWhitespace then
      (if c = '\n' then [rest] else []) ++ nlRemainders rest
    else []

/-- Try the content matcher on each candidate remainder in order (the
backtracking of the greedy whitespace fragment). -/
def tryContentFrom : List (List Char) → Option (List Char × List Char)
  | [] => none
  | rem :: more =>
    match matchContent rem with
    | some r => some r
    | none => tryContentFrom more

/-- Try to match one chunk of the chunk regex at the head of the list:
bracketed file name, colon, whitespace ending at a newline, then lazy
content up to the lookahead.  Returns file name, content and the remainder
after the match. -/
def tryMatchAt (l : List Char) : Option ((List Char × List Char) × List Char) :=
  match l with
  | '[' :: rest =>
    match splitAtRBracket rest with
    | some (t, after) =>
      if validFilename t then
        match after with
        | ':' :: after2 =>
          match tryContentFrom (nlRemainders after2).reverse with
          | some (content, rem) => some ((t, content), rem)
          | none => none
        | _ => none
      else none
    | none => none
  | _ => none

/-- Scan the text left to right collecting successive non-overlapping
chunk matches (re.findall); the fuel bounds the number of scan steps. -/
def scanChunks : Nat → List Char → List (List Char × List Char)
  | 0, _ => []
  | _, [] => []
  | fuel + 1, c :: rest =>
    match tryMatchAt (c :: rest) with
    | some (m, rem) => m :: scanChunks fuel rem
    | none => scanChunks fuel rest

/-- The re.sub removing one leading bracketed header marker: an opening
bracket, lazily anything non-newline up to the first close-bracket-colon,
then trailing whitespace. -/
def findRBracketColon : List Char → Option (List Char)
  | [] => none
  | ']' :: ':' :: rest => some rest
  | '\n' :: _ => none
  | _ :: rest => findRBracketColon rest

/-- Remove a leading bracketed header marker from a chunk, if present. -/
def stripHeaderMarker (l : List Char) : List Char :=
  match l with
  | '[' :: rest =>
    match findRBracketColon rest with
    | some rem => rem.dropWhile Char.isWhitespace
    | none => l
  | _ => l

/-- Embedding of extract_contexts_from_contexts_column
(src/convert_to_ragas_formats.py, lines 14 to 43): split the contexts blob
into passages by file-title chunks, falling back to blank-line splitting,
with sentinel placeholder strings when nothing was extracted. -/
def extractContexts (contextsText : Cell) : List String :=
  if contextsText = none ∨ cellStr contextsText = "" then ["无参考文档"]
  else
    let text := pyStrip (cellStr contextsText)
    let data := text.data
    let found := scanChunks (data.length + 1) data
    let contexts :=
      if found ≠ [] then
        found.filterMap (fun m =>
          let cleaned := collapseWs (trimChars m.2)
          if cleaned.isEmpty then none else some (String.mk cleaned))
      else
        (splitOnBlankLine data).filterMap (fun chunk0 =>
          let chunk := trimChars chunk0
          if chunk ≠ [] ∧ chunk.length > 10 then
            some (String.mk (stripHeaderMarker chunk))
          else none)
    if contexts ≠ [] then contexts else ["参考文档信息不明确"]

/-! ### Alignment filter (src/app.py, align_data_for_evaluation, lines 263 to 300) -/

/-- One aligned record emitted by the alignment filter. -/
structure AlignedRecord where
  question : String
  answer : String
  contexts : List String
  ground_truth : String
deriving Repr, DecidableEq

/-- Embedding of align_data_for_evaluation: keep only rows where question,
AI answer and contexts blob are usable; return the aligned records in input
order together with the skipped count. -/
def alignDataForEvaluation : List Row → List AlignedRecord × Nat
  | [] => ([], 0)
  | row :: rest =>
    let tl := alignDataForEvaluation rest
    if cellBlank row.question then (tl.1, tl.2 + 1)
    else
      let question := pyStrip (cellStr row.question)
      let answer := pyStrip (cellStr row.answer)
      let contextsRaw := pyStrip (cellStr row.contexts)
      if answer ≠ "" ∧ contextsRaw ≠ "" ∧ answer ≠ "nan" ∧ contextsRaw ≠ "nan" then
        let contexts := extractContexts (some contextsRaw)
        if contexts ≠ [] ∧ contexts.any (fun ctx => pyStrip ctx ≠ "") then
          (⟨question, answer, contexts, answer⟩ :: tl.1, tl.2)
        else (tl.1, tl.2 + 1)
      else (tl.1, tl.2 + 1)

/-- The skip condition of the alignment filter, stated declaratively per
row: blank question; blank or sentinel answer; blank or sentinel contexts
blob; or a contexts blob whose extracted passages are all blank. -/
def rowSkipped (row : Row) : Bool :=
  cellBlank row.question ||
  pyStrip (cellStr row.answer) = "" || pyStrip (cellStr row.answer) = "nan" ||
  pyStrip (cellStr row.contexts) = "" || pyStrip (cellStr row.contexts) = "nan" ||
  !((extractContexts (some (pyStrip (cellStr row.contexts)))).any
      (fun ctx => pyStrip ctx ≠ ""))

/-- The aligned record the filter emits for a kept row. -/
def rowToAligned (row : Row) : AlignedRecord :=
  ⟨pyStrip (cellStr row.question), pyStrip (cellStr row.answer),
   extractContexts (some (pyStrip (cellStr row.contexts))),
   pyStrip (cellStr row.answer)⟩

/-! ### Checkpoint store (src/app.py, save_processing_state and
load_processing_state, lines 210 to 261) -/

/-- The pickled checkpoint payload: file hash, the four essential columns
per record, both progress sets serialized as lists, and a timestamp. -/
structure StateData where
  file_hash : String
  df : List Row
  answer_progress : List Nat
  context_progress : List Nat
  timestamp : Nat
deriving Repr, DecidableEq

/-- A state file on disk: ok is a well-formed pickle, error an unreadable
or corrupt file. -/
abbrev StateFile := Except String StateData

/-- The state directory: one file per dataset file hash. -/
abbrev StateStore := List (String × StateFile)

/-- Write or overwrite the file keyed by the hash (atomic replace). -/
def storeSet (st : StateStore) (h : String) (v : StateFile) : StateStore :=
  match st with
  | [] => [(h, v)]
  | (k, w) :: rest => if k = h then (h, v) :: rest else (k, w) :: storeSet rest h v

/-- Embedding of save_processing_state: on a successful write, atomically
replace the state file for the hash with the serialized essential data and
progress lists; a failed write leaves the store unchanged and reports
false.  The ioOk flag models whether the filesystem write raises. -/
def saveProcessingState (st : StateStore) (fileHash : String) (df : List Row)
    (answerProgress contextProgress : Finset Nat) (timestamp : Nat)
    (ioOk : Bool) : StateStore × Bool :=
  if ioOk then
    (storeSet st fileHash
      (Except.ok ⟨fileHash, df, answerProgress.sort (· ≤ ·),
        contextProgress.sort (· ≤ ·), timestamp⟩),
     true)
  else (st, false)

/-- Embedding of load_processing_state: none when no state file exists;
an unreadable or corrupt file is caught and also degrades to none. -/
def loadProcessingState (st : StateStore) (fileHash : String) : Option StateData :=
  match st.lookup fileHash with
  | none => none
  | some (Except.error _) => none
  | some (Except.ok d) => some d

/-! ### Merge-on-load (src/app.py, lines 362 to 379 inside
process_method2_file) -/

/-- One iteration of the merge loop body for a saved row at an index that
exists in the fresh dataframe: copy the checkpoint answer and reference
document whenever the checkpoint answer is non-blank, copy the checkpoint
contexts whenever it is non-blank, and mark the corresponding progress. -/
def mergeStep (df : List Row) (idx : Nat) (s : Row)
    (aP cP : Finset Nat) : List Row × Finset Nat × Finset Nat :=
  if h : idx < df.length then
    let r0 := df.get ⟨idx, h⟩
    let p1 : Row × Finset Nat :=
      if ¬ cellBlank s.answer then
        ({ r0 with answer := s.answer, reference := s.reference }, insert idx aP)
      else (r0, aP)
    let p2 : Row × Finset Nat :=
      if ¬ cellBlank s.contexts then
        ({ p1.1 with contexts := s.contexts }, insert idx cP)
      else (p1.1, cP)
    (df.set idx p2.1, p1.2, p2.2)
  else (df, aP, cP)

/-- The merge loop over the saved rows, carried with the running index. -/
def mergeLoop : List Row → Nat → List Row × Finset Nat × Finset Nat →
    List Row × Finset Nat × Finset Nat
  | [], _, st => st
  | s :: rest, idx, st => mergeLoop rest (idx + 1) (mergeStep st.1 idx s st.2.1 st.2.2)

/-- Embedding of the checkpoint merge in process_method2_file: fold the
saved minimal records into the freshly read dataframe positionally. -/
def mergeCheckpoint (df saved : List Row) (aP cP : Finset Nat) :
    List Row × Finset Nat × Finset Nat :=
  mergeLoop saved 0 (df, aP, cP)

/-- The per-row merge result the loop produces at an index present in both
the fresh dataframe and the saved records. -/
def mergeRowFn (r s : Row) : Row :=
  let r1 := if ¬ cellBlank s.answer then
    { r with answer := s.answer, reference := s.reference } else r
  if ¬ cellBlank s.contexts then { r1 with contexts := s.contexts } else r1

/-! ### Task building (src/app.py, lines 389 to 407 inside
process_method2_file) -/

/-- Embedding of the task-collection loop: walk the rows with their index;
skip rows with a blank question; emit an answer task when the index is not
in the answer progress set and the AI answer is blank, and a contexts task
when the index is not in the contexts progress set and the contexts blob
is blank. -/
def buildTasks : List Row → Nat → Finset Nat → Finset Nat →
    List (Nat × String) × List (Nat × String)
  | [], _, _, _ => ([], [])
  | row :: rest, idx, aP, cP =>
    let tl := buildTasks rest (idx + 1) aP cP
    if cellBlank row.question then tl
    else
      let question := pyStrip (cellStr row.question)
      let ta := if idx ∉ aP ∧ cellBlank row.answer then (idx, question) :: tl.1 else tl.1
      let tc := if idx ∉ cP ∧ cellBlank row.contexts then (idx, question) :: tl.2 else tl.2
      (ta, tc)

/-! ### Applying fetch results (src/app.py, lines 432 to 446, and the
failure shape of query_answer in src/get_answer_parallel.py, lines 174
to 187) -/

/-- The dictionary query_answer returns to the orchestrator. -/
structure AnswerFetchResult where
  ai_answer : String
  reference : String
  success : Bool
  error : Option String
deriving Repr, DecidableEq

/-- The value query_answer returns on any of its failure paths (timeout,
request error, processing error): empty fields and success false. -/
def queryAnswerFailure (msg : String) : AnswerFetchResult :=
  ⟨"", "", false, some msg⟩

/-- Overwrite the answer and reference cells of the row at an index
(the two dataframe cell writes of the success branch). -/
def setRowAnswer : List Row → Nat → String → String → List Row
  | [], _, _, _ => []
  | row :: rest, 0, a, r => { row with answer := some a, reference := some r } :: rest
  | row :: rest, idx + 1, a, r => row :: setRowAnswer rest idx a r

/-- Embedding of the completion-draining loop for answer tasks: each
successful result writes the returned fields into the record and marks the
index done; a failed result leaves the record untouched and does not mark
progress.  Results are given in completion order; the last component
counts the successful fetches. -/
def applyAnswerResults : List (Nat × AnswerFetchResult) → List Row → Finset Nat →
    Nat → List Row × Finset Nat × Nat
  | [], df, aP, succ => (df, aP, succ)
  | (idx, res) :: rest, df, aP, succ =>
    if res.success then
      applyAnswerResults rest (setRowAnswer df idx res.ai_answer res.reference)
        (insert idx aP) (succ + 1)
    else
      applyAnswerResults rest df aP succ

/-! ### Evaluation entry validation (src/app.py, evaluate_dataset,
lines 557 to 659) -/

/-- The metric names known to the metric map of evaluate_dataset. -/
def metricNames : List String :=
  ["faithfulness", "answer_relevancy", "context_precision",
   "context_recall", "answer_similarity", "answer_correctness"]

/-- The defense-in-depth re-validation applied per sample: non-empty
question, answer and contexts, and at least one non-blank context. -/
def validSample (item : AlignedRecord) : Bool :=
  item.question ≠ "" && item.answer ≠ "" && item.contexts ≠ [] &&
    !(item.contexts.all (fun ctx => pyStrip ctx = ""))

/-- Embedding of evaluate_dataset: validate the input, drop invalid
samples, map the selected metric names through the metric map, and only
then invoke the scoring collaborator.  The scoring collaborator is the
score parameter; the second component counts how many times it was
invoked. -/
def evaluateDataset {α : Type}
    (score : List AlignedRecord → List String → Option α)
    (evaluationData : List AlignedRecord) (selectedMetrics : List String) :
    Option α × Nat :=
  if evaluationData = [] then (none, 0)
  else
    let validSamples := evaluationData.filter validSample
    if validSamples = [] then (none, 0)
    else
      let metrics := selectedMetrics.filter (fun m => metricNames.contains m)
      if metrics = [] then (none, 0)
      else (score validSamples metrics, 1)

/-! ### Retry and backoff executor (src/evaluate_dataset.py,
_evaluate_batch lines 201 to 251, run_batch_evaluation lines 162 to 199,
_merge_results lines 253 to 263) -/

/-- The wait computed after a failed attempt, classified from the error
text exactly as the source does: a Connection-error or timeout signature
waits base times three to the attempt plus a uniform draw from 5 to 15; a
rate or limit signature waits base times four to the attempt plus a draw
from 10 to 30; anything else waits base plus a draw from 1 to 5.  The
base delay is 5 and u is the drawn jitter. -/
def classifyWait (msg : String) (attempt : Nat) (u : ℚ) : ℚ :=
  if containsSub msg "Connection error" || containsSub (pyLower msg) "timeout" then
    5 * 3 ^ attempt + u
  else if containsSub (pyLower msg) "rate" || containsSub (pyLower msg) "limit" then
    5 * 4 ^ attempt + u
  else 5 + u

/-- The attempt loop of _evaluate_batch.  The score argument gives the
scoring collaborator outcome of each attempt; batchNum greater than one
triggers the inter-chunk jitter sleep before every attempt; jitter and
waitDraw are the random draws for the jitter sleep and the backoff wait.
Returns the result (none when all attempts failed) and the list of sleep
durations in order. -/
def evalBatchGo {α : Type} (score : Nat → Except String α) (batchNum : Nat)
    (jitter waitDraw : Nat → ℚ) : Nat → Nat → Option α × List ℚ
  | _, 0 => (none, [])
  | attempt, remaining + 1 =>
    let pre : List ℚ := if 1 < batchNum then [jitter attempt] else []
    match score attempt with
    | Except.ok res => (some res, pre)
    | Except.error msg =>
      if remaining = 0 then (none, pre)
      else
        let w := classifyWait msg attempt (waitDraw attempt)
        let tl := evalBatchGo score batchNum jitter waitDraw (attempt + 1) remaining
        (tl.1, pre ++ w :: tl.2)

/-- Embedding of _evaluate_batch: up to maxRetries sequential attempts of
the scoring collaborator with classified backoff between attempts. -/
def evaluateBatch {α : Type} (score : Nat → Except String α) (batchNum : Nat)
    (jitter waitDraw : Nat → ℚ) (maxRetries : Nat) : Option α × List ℚ :=
  evalBatchGo score batchNum jitter waitDraw 0 maxRetries

/-- Embedding of _merge_results: the merged result is the first element of
the collected per-chunk results. -/
def mergeResults {α : Type} (resultsList : List α) : Option α :=
  resultsList.head?

/-- The chunk with one-based number i plus one: the slice of the dataset
from i times the batch size of length at most the batch size. -/
def batchSlice {β : Type} (data : List β) (batchSize i : Nat) : List β :=
  (data.drop (i * batchSize)).take batchSize

/-- The chunk loop of run_batch_evaluation: evaluate each chunk with the
per-chunk evaluator (batch numbers are one-based), collecting successful
results in order and skipping failed chunks. -/
def runBatchLoop {α β : Type} (evalB : Nat → List β → Option α)
    (data : List β) (batchSize : Nat) : Nat → Nat → List α
  | _, 0 => []
  | i, fuel + 1 =>
    let rest := runBatchLoop evalB data batchSize (i + 1) fuel
    match evalB (i + 1) (batchSlice data batchSize i) with
    | some r => r :: rest
    | none => rest

/-- Embedding of run_batch_evaluation: split the dataset into fixed-size
chunks, evaluate each with its own retry loop, skip chunks that exhausted
their retries, and merge the successful results; none when every chunk
failed. -/
def runBatchEvaluation {α β : Type} (evalB : Nat → List β → Option α)
    (data : List β) (batchSize : Nat) : Option α :=
  let numBatches := (data.length + batchSize - 1) / batchSize
  let allResults := runBatchLoop evalB data batchSize 0 numBatches
  if allResults.isEmpty then none else mergeResults allResults

/-! ## Helper lemmas -/

theorem storeSet_lookup (st : StateStore) (h : String) (v : StateFile) :
    (storeSet st h v).lookup h = some v := by
  induction st with
  | nil => simp [storeSet, List.lookup]
  | cons kv rest ih =>
    obtain ⟨k, w⟩ := kv
    by_cases hk : k = h
    · simp [storeSet, hk, List.lookup]
    · have hbeq : (h == k) = false := beq_eq_false_iff_ne.mpr (fun e => hk e.symm)
      simp [storeSet, hk, List.lookup, hbeq, ih]

theorem load_after_save (st : StateStore) (h : String) (df : List Row)
    (aP cP : Finset Nat) (t : Nat) :
    loadProcessingState (saveProcessingState st h df aP cP t true).1 h =
      some ⟨h, df, aP.sort (· ≤ ·), cP.sort (· ≤ ·), t⟩ := by
  unfold loadProcessingState saveProcessingState
  simp only [if_pos]
  rw [storeSet_lookup]

/-! ## Claim C7: empty metrics or empty aligned records reject before
any scoring call -/

/-- Claim C7.  For every scoring collaborator, the evaluation entry given an
empty metrics list or an empty aligned-record list returns the terminal
validation failure (none) and the scoring collaborator is invoked zero
times. -/
theorem C7_empty_input_rejected_before_scoring {α : Type}
    (score : List AlignedRecord → List String → Option α)
    (evaluationData : List AlignedRecord) (selectedMetrics : List String)
    (h : selectedMetrics = [] ∨ evaluationData = []) :
    evaluateDataset score evaluationData selectedMetrics = (none, 0) := by
  rcases h with h | h
  · subst h
    unfold evaluateDataset
    split
    · rfl
    · simp only [List.filter_nil]
      split
      · rfl
      · rfl
  · subst h
    rfl

/-- Witness for C7 at a concrete input: a populated record list with an
empty metrics list is rejected with no scoring call. -/
theorem C7_witness :
    evaluateDataset (fun _ _ => some (1 : Nat))
      [⟨"q", "a", ["c"], "a"⟩] [] = (none, 0) :=
  C7_empty_input_rejected_before_scoring _ _ _ (Or.inl rfl)

/-! ## Claim C8: checkpoint load returns the last saved state and fails
soft on missing or corrupt files -/

/-- Claim C8.  Loading returns none when no state file exists for the hash and
none when the stored file is unreadable or corrupt (deserialization
failure degrades to the no-checkpoint result); after a successful save
the load returns exactly the data just saved (saves atomically replace,
so this is the last successfully saved checkpoint), and a failed save
leaves the store unchanged. -/
theorem C8_load_fail_soft_and_last_saved (st : StateStore) (h : String)
    (df : List Row) (aP cP : Finset Nat) (t : Nat) :
    (st.lookup h = none → loadProcessingState st h = none) ∧
    (∀ msg, st.lookup h = some (Except.error msg) → loadProcessingState st h = none) ∧
    (loadProcessingState (saveProcessingState st h df aP cP t true).1 h =
      some ⟨h, df, aP.sort (· ≤ ·), cP.sort (· ≤ ·), t⟩) ∧
    (saveProcessingState st h df aP cP t false).1 = st := by
  refine ⟨?_, ?_, load_after_save st h df aP cP t, rfl⟩
  · intro hl
    unfold loadProcessingState
    rw [hl]
  · intro msg hl
    unfold loadProcessingState
    rw [hl]

/-- Witness for C8 at concrete inputs: an empty store and a store holding
a corrupt file both load as none, and a concrete save round-trips. -/
theorem C8_witness :
    ((([] : StateStore).lookup "h1" = none →
        loadProcessingState ([] : StateStore) "h1" = none) ∧
      loadProcessingState [("h1", Except.error "bad pickle")] "h1" = none ∧
      loadProcessingState
        (saveProcessingState [] "h1" [] {0} {1} 5 true).1 "h1" =
        some ⟨"h1", [], ({0} : Finset Nat).sort (· ≤ ·),
          ({1} : Finset Nat).sort (· ≤ ·), 5⟩) :=
  ⟨(C8_load_fail_soft_and_last_saved [] "h1" [] {0} {1} 5).1,
   (C8_load_fail_soft_and_last_saved [("h1", Except.error "bad pickle")] "h1"
      [] {0} {1} 5).2.1 "bad pickle" rfl,
   (C8_load_fail_soft_and_last_saved [] "h1" [] {0} {1} 5).2.2.1⟩

/-! ## Claim C9: save followed by load preserves the progress sets -/

/-- Claim C9.  A successful checkpoint save followed immediately by a load on
the same fingerprint returns a checkpoint whose answer and contexts
progress sets (the stored lists read back as sets) are equal to, and in
particular supersets of, the sets passed to save. -/
theorem C9_save_load_progress_supersets (st : StateStore) (h : String)
    (df : List Row) (aP cP : Finset Nat) (t : Nat) :
    ∃ d : StateData,
      loadProcessingState (saveProcessingState st h df aP cP t true).1 h = some d ∧
      d.answer_progress.toFinset = aP ∧ d.context_progress.toFinset = cP ∧
      aP ⊆ d.answer_progress.toFinset ∧ cP ⊆ d.context_progress.toFinset := by
  refine ⟨⟨h, df, aP.sort (· ≤ ·), cP.sort (· ≤ ·), t⟩,
    load_after_save st h df aP cP t, ?_, ?_, ?_, ?_⟩
  all_goals simp [Finset.sort_toFinset]

/-! ## Claim C3: classified retry backoff of the batch evaluator -/

/-- Claim C3.  With maxRetries 3, a scoring collaborator that raises a rate or
limit signature error on attempts one and two and succeeds on attempt
three makes the executor return the attempt-three result, and the two
waits slept in between follow the rate-limit backoff formula (base 5
times four to the zero-based attempt plus the drawn jitter) and hence lie
within its jitter bounds of 10 to 30 above the exponential term. -/
theorem C3_rate_limit_backoff {α : Type} (score : Nat → Except String α)
    (res : α) (m0 m1 : String) (jitter waitDraw : Nat → ℚ)
    (hs0 : score 0 = Except.error m0) (hs1 : score 1 = Except.error m1)
    (hs2 : score 2 = Except.ok res)
    (hm0c : containsSub m0 "Connection error" = false)
    (hm0t : containsSub (pyLower m0) "timeout" = false)
    (hm0r : (containsSub (pyLower m0) "rate" || containsSub (pyLower m0) "limit") = true)
    (hm1c : containsSub m1 "Connection error" = false)
    (hm1t : containsSub (pyLower m1) "timeout" = false)
    (hm1r : (containsSub (pyLower m1) "rate" || containsSub (pyLower m1) "limit") = true)
    (hw0 : 10 ≤ waitDraw 0 ∧ waitDraw 0 ≤ 30)
    (hw1 : 10 ≤ waitDraw 1 ∧ waitDraw 1 ≤ 30) :
    evaluateBatch score 1 jitter waitDraw 3 =
      (some res, [5 * 4 ^ 0 + waitDraw 0, 5 * 4 ^ 1 + waitDraw 1]) ∧
    (5 * 4 ^ 0 + 10 ≤ 5 * 4 ^ 0 + waitDraw 0 ∧
      5 * 4 ^ 0 + waitDraw 0 ≤ 5 * 4 ^ 0 + (30 : ℚ)) ∧
    (5 * 4 ^ 1 + 10 ≤ 5 * 4 ^ 1 + waitDraw 1 ∧
      5 * 4 ^ 1 + waitDraw 1 ≤ 5 * 4 ^ 1 + (30 : ℚ)) := by
  have e0 : evalBatchGo score 1 jitter waitDraw 0 3 =
      (some res, [5 * 4 ^ 0 + waitDraw 0, 5 * 4 ^ 1 + waitDraw 1]) := by
    simp [evalBatchGo, hs0, hs1, hs2, classifyWait,
      hm0c, hm0t, hm0r, hm1c, hm1t, hm1r]
  refine ⟨e0, ⟨?_, ?_⟩, ⟨?_, ?_⟩⟩ <;> linarith [hw0.1, hw0.2, hw1.1, hw1.2]

/-- Witness for C3 at a concrete scoring collaborator and concrete
jitter draws. -/
theorem C3_witness :
    evaluateBatch
      (fun n => if n = 0 then Except.error "rate limit exceeded"
        else if n = 1 then Except.error "Rate Limit again" else Except.ok (42 : Nat))
      1 (fun _ => 0) (fun _ => 20) 3 =
      (some 42, [5 * 4 ^ 0 + 20, 5 * 4 ^ 1 + 20]) :=
  (C3_rate_limit_backoff _ 42 "rate limit exceeded" "Rate Limit again" _ _
    rfl rfl rfl (by decide) (by decide) (by decide)
    (by decide) (by decide) (by decide)
    ⟨by norm_num, by norm_num⟩ ⟨by norm_num, by norm_num⟩).1

/-! ## Claim C4: chunked evaluation mode -/

theorem ceil_div_pred (bs n m : Nat) (hbs : 0 < bs)
    (h : (n + bs - 1) / bs = m + 1) : (n - bs + bs - 1) / bs = m := by
  by_cases hn : bs < n
  · have he : n + bs - 1 = (n - bs + bs - 1) + bs := by omega
    rw [he, Nat.add_div_right _ hbs] at h
    omega
  · have h1 : n - bs = 0 := by omega
    have h4 : (n + bs - 1) / bs < 2 := Nat.div_lt_of_lt_mul (by omega)
    rw [h] at h4
    have hm : m = 0 := by omega
    rw [h1, hm]
    exact Nat.div_eq_of_lt (by omega)

theorem batchSlice_succ {β : Type} (data : List β) (bs i : Nat) :
    batchSlice data bs (i + 1) = batchSlice (data.drop bs) bs i := by
  unfold batchSlice
  rw [List.drop_drop]
  congr 2
  ring

theorem chunks_join {β : Type} (bs : Nat) (hbs : 0 < bs) :
    ∀ (fuel : Nat) (data : List β), (data.length + bs - 1) / bs = fuel →
      ((List.range fuel).map (fun i => batchSlice data bs i)).flatten = data := by
  intro fuel
  induction fuel with
  | zero =>
    intro data h
    have hlen : data.length = 0 := by
      by_contra hne
      have h1 : 1 * bs ≤ data.length + bs - 1 := by omega
      have h2 : 1 ≤ (data.length + bs - 1) / bs := (Nat.le_div_iff_mul_le hbs).mpr h1
      omega
    rw [List.eq_nil_of_length_eq_zero hlen]
    simp
  | succ f ih =>
    intro data h
    have hrec : ((data.drop bs).length + bs - 1) / bs = f := by
      rw [List.length_drop]
      exact ceil_div_pred bs data.length f hbs h
    have hmap : (List.range (f + 1)).map (fun i => batchSlice data bs i) =
        batchSlice data bs 0 :: (List.range f).map (fun i => batchSlice (data.drop bs) bs i) := by
      rw [List.range_succ_eq_map, List.map_cons, List.map_map]
      congr 1
      refine List.map_congr_left ?_
      intro i _
      show batchSlice data bs (i + 1) = batchSlice (data.drop bs) bs i
      exact batchSlice_succ data bs i
    have hfin : batchSlice data bs 0 ++ data.drop bs = data := by
      unfold batchSlice
      rw [Nat.zero_mul, List.drop_zero, List.take_append_drop]
    rw [hmap, List.flatten_cons, ih (data.drop bs) hrec]
    exact hfin

theorem runBatchLoop_nil {α β : Type} (evalB : Nat → List β → Option α)
    (data : List β) (bs : Nat) :
    ∀ (fuel i : Nat),
      (∀ j, j < fuel → evalB (i + 1 + j) (batchSlice data bs (i + j)) = none) →
      runBatchLoop evalB data bs i fuel = [] := by
  intro fuel
  induction fuel with
  | zero => intro i _; rfl
  | succ f ih =>
    intro i hfail
    have h0 : evalB (i + 1) (batchSlice data bs i) = none := by
      have := hfail 0 (Nat.succ_pos f)
      simpa using this
    have htail : runBatchLoop evalB data bs (i + 1) f = [] := by
      refine ih (i + 1) ?_
      intro j hj
      have hstep := hfail (j + 1) (by omega)
      have heq1 : i + 1 + (j + 1) = i + 1 + 1 + j := by omega
      have heq2 : i + (j + 1) = i + 1 + j := by omega
      rw [heq1, heq2] at hstep
      exact hstep
    simp [runBatchLoop, h0, htail]

theorem runBatchLoop_head {α β : Type} (evalB : Nat → List β → Option α)
    (data : List β) (bs : Nat) :
    ∀ (fuel i k : Nat) (r : α), k < fuel →
      (∀ j, j < k → evalB (i + 1 + j) (batchSlice data bs (i + j)) = none) →
      evalB (i + 1 + k) (batchSlice data bs (i + k)) = some r →
      (runBatchLoop evalB data bs i fuel).head? = some r := by
  intro fuel
  induction fuel with
  | zero => intro i k r hk; omega
  | succ f ih =>
    intro i k r hk hfail hok
    match k with
    | 0 =>
      have h0 : evalB (i + 1) (batchSlice data bs i) = some r := by simpa using hok
      simp [runBatchLoop, h0]
    | k' + 1 =>
      have h0 : evalB (i + 1) (batchSlice data bs i) = none := by
        have := hfail 0 (Nat.succ_pos k')
        simpa using this
      have htail : (runBatchLoop evalB data bs (i + 1) f).head? = some r := by
        refine ih (i + 1) k' r (by omega) ?_ ?_
        · intro j hj
          have hstep := hfail (j + 1) (by omega)
          have heq1 : i + 1 + (j + 1) = i + 1 + 1 + j := by omega
          have heq2 : i + (j + 1) = i + 1 + j := by omega
          rw [heq1, heq2] at hstep
          exact hstep
        · have heq1 : i + 1 + (k' + 1) = i + 1 + 1 + k' := by omega
          have heq2 : i + (k' + 1) = i + 1 + k' := by omega
          rw [heq1, heq2] at hok
          exact hok
      simp [runBatchLoop, h0, htail]

/-- Claim C4.  Chunked evaluation: the fixed-size chunks tile the input
exactly; the merged result equals the first successful chunk result even
when earlier chunks exhausted their retries (failed chunks are skipped,
not aborting the run); when every chunk fails the run returns no result;
and for every chunk after the first, each attempt is preceded by the
drawn inter-chunk jitter sleep, which lies in the 0.5 to 2.0 range
whenever the draw does. -/
theorem C4_chunked_evaluation {α β : Type} (evalB : Nat → List β → Option α)
    (data : List β) (bs : Nat) (hbs : 0 < bs) :
    (((List.range ((data.length + bs - 1) / bs)).map
        (fun i => batchSlice data bs i)).flatten = data) ∧
    (∀ k r, k < (data.length + bs - 1) / bs →
      (∀ j, j < k → evalB (j + 1) (batchSlice data bs j) = none) →
      evalB (k + 1) (batchSlice data bs k) = some r →
      runBatchEvaluation evalB data bs = some r) ∧
    ((∀ j, j < (data.length + bs - 1) / bs →
        evalB (j + 1) (batchSlice data bs j) = none) →
      runBatchEvaluation evalB data bs = none) ∧
    (∀ (score : Nat → Except String α) (bn : Nat) (jd wd : Nat → ℚ) (n : Nat),
      1 < bn → 0 < n → 1/2 ≤ jd 0 → jd 0 ≤ 2 →
      ∃ rest, (evaluateBatch score bn jd wd n).2 = jd 0 :: rest ∧
        1/2 ≤ jd 0 ∧ jd 0 ≤ 2) := by
  refine ⟨chunks_join bs hbs _ data rfl, ?_, ?_, ?_⟩
  · intro k r hk hfail hok
    have hhead : (runBatchLoop evalB data bs 0 ((data.length + bs - 1) / bs)).head? = some r := by
      refine runBatchLoop_head evalB data bs _ 0 k r hk ?_ ?_
      · intro j hj
        have e1 : 0 + 1 + j = j + 1 := by omega
        have e2 : 0 + j = j := by omega
        rw [e1, e2]
        exact hfail j hj
      · have e1 : 0 + 1 + k = k + 1 := by omega
        have e2 : 0 + k = k := by omega
        rw [e1, e2]
        exact hok
    show (if (runBatchLoop evalB data bs 0 ((data.length + bs - 1) / bs)).isEmpty then none
          else mergeResults (runBatchLoop evalB data bs 0 ((data.length + bs - 1) / bs)))
        = some r
    cases hres : runBatchLoop evalB data bs 0 ((data.length + bs - 1) / bs) with
    | nil =>
      rw [hres] at hhead
      simp at hhead
    | cons a l =>
      rw [hres] at hhead
      simpa [mergeResults] using hhead
  · intro hfail
    have hnil : runBatchLoop evalB data bs 0 ((data.length + bs - 1) / bs) = [] := by
      refine runBatchLoop_nil evalB data bs _ 0 ?_
      intro j hj
      have e1 : 0 + 1 + j = j + 1 := by omega
      have e2 : 0 + j = j := by omega
      rw [e1, e2]
      exact hfail j hj
    show (if (runBatchLoop evalB data bs 0 ((data.length + bs - 1) / bs)).isEmpty then none
          else mergeResults (runBatchLoop evalB data bs 0 ((data.length + bs - 1) / bs)))
        = none
    rw [hnil]
    rfl
  · intro score bn jd wd n hbn hn hlo hhi
    match n with
    | m + 1 =>
      cases hsc : score 0 with
      | ok r =>
        refine ⟨[], ?_, hlo, hhi⟩
        simp [evaluateBatch, evalBatchGo, hsc, hbn]
      | error msg =>
        by_cases hm : m = 0
        · refine ⟨[], ?_, hlo, hhi⟩
          simp [evaluateBatch, evalBatchGo, hsc, hbn, hm]
        · refine ⟨classifyWait msg 0 (wd 0) :: (evalBatchGo score bn jd wd (0 + 1) m).2,
            ?_, hlo, hhi⟩
          simp [evaluateBatch, evalBatchGo, hsc, hbn, hm]

/-- Witness for C4 at a concrete dataset, batch size and per-chunk
evaluator: seven elements in chunks of three, the first chunk failing and
the second succeeding, yield the second chunk result. -/
theorem C4_witness :
    runBatchEvaluation
      (fun i _ => if i = 2 then some (7 : Nat) else none)
      ([10, 11, 12, 13, 14, 15, 16] : List Nat) 3 = some 7 :=
  (C4_chunked_evaluation _ [10, 11, 12, 13, 14, 15, 16] 3 (by decide)).2.1 1 7
    (by decide)
    (by intro j hj; interval_cases j; decide)
    (by decide)

/-! ## Claim C2: task building is exactly the resume condition -/

/-- The answer task the loop emits for an indexed row, if any. -/
def answerTaskOf (aP : Finset Nat) (p : Nat × Row) : Option (Nat × String) :=
  if cellBlank p.2.question = false ∧ p.1 ∉ aP ∧ cellBlank p.2.answer = true then
    some (p.1, pyStrip (cellStr p.2.question))
  else none

/-- The contexts task the loop emits for an indexed row, if any. -/
def contextTaskOf (cP : Finset Nat) (p : Nat × Row) : Option (Nat × String) :=
  if cellBlank p.2.question = false ∧ p.1 ∉ cP ∧ cellBlank p.2.contexts = true then
    some (p.1, pyStrip (cellStr p.2.question))
  else none

theorem buildTasks_eq_filterMap (rows : List Row) :
    ∀ (start : Nat) (aP cP : Finset Nat),
      buildTasks rows start aP cP =
        ((List.enumFrom start rows).filterMap (answerTaskOf aP),
         (List.enumFrom start rows).filterMap (contextTaskOf cP)) := by
  induction rows with
  | nil => intro start aP cP; rfl
  | cons row rest ih =>
    intro start aP cP
    by_cases hq : cellBlank row.question
    · simp only [buildTasks, ih, List.enumFrom, List.filterMap_cons]
      rw [if_pos hq]
      have ha : answerTaskOf aP (start, row) = none := by
        unfold answerTaskOf
        rw [if_neg]
        simp [hq]
      have hc : contextTaskOf cP (start, row) = none := by
        unfold contextTaskOf
        rw [if_neg]
        simp [hq]
      rw [ha, hc]
    · simp only [buildTasks, ih, List.enumFrom, List.filterMap_cons]
      rw [if_neg hq]
      have hq' : cellBlank row.question = false := by
        simpa using hq
      have ha : answerTaskOf aP (start, row) =
          (if start ∉ aP ∧ cellBlank row.answer = true then
            some (start, pyStrip (cellStr row.question)) else none) := by
        unfold answerTaskOf
        simp [hq']
      have hc : contextTaskOf cP (start, row) =
          (if start ∉ cP ∧ cellBlank row.contexts = true then
            some (start, pyStrip (cellStr row.question)) else none) := by
        unfold contextTaskOf
        simp [hq']
      rw [ha, hc]
      by_cases hca : start ∉ aP ∧ cellBlank row.answer = true <;>
        by_cases hcc : start ∉ cP ∧ cellBlank row.contexts = true <;>
          simp [hca, hcc]

theorem enumFrom_mem {γ : Type} (l : List γ) :
    ∀ (n i : Nat) (x : γ),
      ((i, x) ∈ List.enumFrom n l ↔ ∃ k, i = n + k ∧ l[k]? = some x) := by
  induction l with
  | nil => intro n i x; simp
  | cons a rest ih =>
    intro n i x
    constructor
    · intro hmem
      rcases List.mem_cons.mp hmem with heq | htail
      · have hi : i = n := congrArg Prod.fst heq
        have hx : x = a := congrArg Prod.snd heq
        subst hx
        exact ⟨0, by omega, by simp⟩
      · rcases (ih (n + 1) i x).mp htail with ⟨k, hk, hget⟩
        exact ⟨k + 1, by omega, by simpa using hget⟩
    · rintro ⟨k, hk, hget⟩
      match k with
      | 0 =>
        simp only [List.getElem?_cons_zero, Option.some.injEq] at hget
        subst hget
        have : i = n := by omega
        subst this
        exact List.mem_cons_self _ _
      | k' + 1 =>
        simp only [List.getElem?_cons_succ] at hget
        refine List.mem_cons_of_mem _ ((ih (n + 1) i x).mpr ⟨k', by omega, hget⟩)

/-- Claim C2.  A fetch task for an index and kind exists iff the question at
that index is non-blank, the corresponding progress set does not mark the
index done, and the corresponding field is still blank; in particular a
pair already marked done never generates a task on a restart. -/
theorem C2_task_build_iff (rows : List Row) (aP cP : Finset Nat)
    (idx : Nat) (q : String) :
    ((idx, q) ∈ (buildTasks rows 0 aP cP).1 ↔
      ∃ r, rows[idx]? = some r ∧ cellBlank r.question = false ∧ idx ∉ aP ∧
        cellBlank r.answer = true ∧ q = pyStrip (cellStr r.question)) ∧
    ((idx, q) ∈ (buildTasks rows 0 aP cP).2 ↔
      ∃ r, rows[idx]? = some r ∧ cellBlank r.question = false ∧ idx ∉ cP ∧
        cellBlank r.contexts = true ∧ q = pyStrip (cellStr r.question)) ∧
    (idx ∈ aP → (idx, q) ∉ (buildTasks rows 0 aP cP).1) ∧
    (idx ∈ cP → (idx, q) ∉ (buildTasks rows 0 aP cP).2) := by
  rw [buildTasks_eq_filterMap rows 0 aP cP]
  have hmemA : (idx, q) ∈ (List.enumFrom 0 rows).filterMap (answerTaskOf aP) ↔
      ∃ r, rows[idx]? = some r ∧ cellBlank r.question = false ∧ idx ∉ aP ∧
        cellBlank r.answer = true ∧ q = pyStrip (cellStr r.question) := by
    rw [List.mem_filterMap]
    constructor
    · rintro ⟨⟨i, r⟩, hmem, hf⟩
      rcases (enumFrom_mem rows 0 i r).mp hmem with ⟨k, hk, hget⟩
      unfold answerTaskOf at hf
      split at hf
      · rename_i hcond
        simp only [Option.some.injEq, Prod.mk.injEq] at hf
        obtain ⟨hfi, hfq⟩ := hf
        refine ⟨r, ?_, hcond.1, ?_, hcond.2.2, hfq.symm⟩
        · rw [show idx = k from by omega]
          exact hget
        · rw [show idx = i from hfi.symm]
          exact hcond.2.1
      · exact absurd hf (by simp)
    · rintro ⟨r, hget, hq, hnp, hba, hqs⟩
      refine ⟨(idx, r), (enumFrom_mem rows 0 idx r).mpr ⟨idx, by omega, hget⟩, ?_⟩
      unfold answerTaskOf
      rw [if_pos ⟨hq, hnp, hba⟩, hqs]
  have hmemC : (idx, q) ∈ (List.enumFrom 0 rows).filterMap (contextTaskOf cP) ↔
      ∃ r, rows[idx]? = some r ∧ cellBlank r.question = false ∧ idx ∉ cP ∧
        cellBlank r.contexts = true ∧ q = pyStrip (cellStr r.question) := by
    rw [List.mem_filterMap]
    constructor
    · rintro ⟨⟨i, r⟩, hmem, hf⟩
      rcases (enumFrom_mem rows 0 i r).mp hmem with ⟨k, hk, hget⟩
      unfold contextTaskOf at hf
      split at hf
      · rename_i hcond
        simp only [Option.some.injEq, Prod.mk.injEq] at hf
        obtain ⟨hfi, hfq⟩ := hf
        refine ⟨r, ?_, hcond.1, ?_, hcond.2.2, hfq.symm⟩
        · rw [show idx = k from by omega]
          exact hget
        · rw [show idx = i from hfi.symm]
          exact hcond.2.1
      · exact absurd hf (by simp)
    · rintro ⟨r, hget, hq, hnp, hbc, hqs⟩
      refine ⟨(idx, r), (enumFrom_mem rows 0 idx r).mpr ⟨idx, by omega, hget⟩, ?_⟩
      unfold contextTaskOf
      rw [if_pos ⟨hq, hnp, hbc⟩, hqs]
  refine ⟨hmemA, hmemC, ?_, ?_⟩
  · intro hdone hmem
    rcases hmemA.mp hmem with ⟨r, _, _, hnp, _⟩
    exact hnp hdone
  · intro hdone hmem
    rcases hmemC.mp hmem with ⟨r, _, _, hnp, _⟩
    exact hnp hdone

/-- Witness for C2 at a concrete dataset: the index marked done in the
answer progress set generates no task even though its field is blank, and
an unmarked blank row does generate its task. -/
theorem C2_witness :
    ((0 : Nat) ∈ ({0} : Finset Nat) →
      ((0 : Nat), "q0") ∉ (buildTasks [⟨some "q0", none, none, none⟩,
        ⟨some "q1", none, none, none⟩] 0 {0} ∅).1) ∧
    ((1 : Nat), "q1") ∈ (buildTasks [⟨some "q0", none, none, none⟩,
      ⟨some "q1", none, none, none⟩] 0 {0} ∅).1 :=
  ⟨(C2_task_build_iff [⟨some "q0", none, none, none⟩,
      ⟨some "q1", none, none, none⟩] {0} ∅ 0 "q0").2.2.1,
   (C2_task_build_iff [⟨some "q0", none, none, none⟩,
      ⟨some "q1", none, none, none⟩] {0} ∅ 1 "q1").1.mpr
     ⟨⟨some "q1", none, none, none⟩, by decide, by decide, by decide, by decide, by decide⟩⟩

/-! ## Claim C6: a failed fetch leaves the record untouched and
unmarked; successful fetches are recorded -/

theorem setRowAnswer_getElem_ne (df : List Row) :
    ∀ (j idx : Nat) (a r : String), idx ≠ j →
      (setRowAnswer df j a r)[idx]? = df[idx]? := by
  induction df with
  | nil => intro j idx a r _; rfl
  | cons row rest ih =>
    intro j idx a r hne
    match j, idx with
    | 0, 0 => exact absurd rfl hne
    | 0, i + 1 => simp [setRowAnswer]
    | jj + 1, 0 => simp [setRowAnswer]
    | jj + 1, i + 1 =>
      simp only [setRowAnswer, List.getElem?_cons_succ]
      exact ih jj i a r (by omega)

theorem applyAnswerResults_untouched
    (idx : Nat) :
    ∀ (results : List (Nat × AnswerFetchResult)) (df : List Row)
      (aP : Finset Nat) (succ : Nat),
      (∀ res, (idx, res) ∈ results → res.success = false) →
      ((applyAnswerResults results df aP succ).1[idx]? = df[idx]? ∧
        (idx ∉ aP → idx ∉ (applyAnswerResults results df aP succ).2.1)) := by
  intro results
  induction results with
  | nil => intro df aP succ _; exact ⟨rfl, fun h => h⟩
  | cons p rest ih =>
    intro df aP succ hfail
    obtain ⟨j, res⟩ := p
    by_cases hs : res.success
    · have hne : idx ≠ j := by
        intro he
        subst he
        exact absurd hs (by simp [hfail res (List.mem_cons_self _ _)])
      have htail := ih (setRowAnswer df j res.ai_answer res.reference)
        (insert j aP) (succ + 1)
        (fun r hr => hfail r (List.mem_cons_of_mem _ hr))
      refine ⟨?_, ?_⟩
      · rw [show applyAnswerResults ((j, res) :: rest) df aP succ =
            applyAnswerResults rest (setRowAnswer df j res.ai_answer res.reference)
              (insert j aP) (succ + 1) from by simp [applyAnswerResults, hs]]
        rw [htail.1]
        exact setRowAnswer_getElem_ne df j idx _ _ hne
      · intro hnp
        rw [show applyAnswerResults ((j, res) :: rest) df aP succ =
            applyAnswerResults rest (setRowAnswer df j res.ai_answer res.reference)
              (insert j aP) (succ + 1) from by simp [applyAnswerResults, hs]]
        refine htail.2 ?_
        rw [Finset.mem_insert]
        push_neg
        exact ⟨hne, hnp⟩
    · have hstep : applyAnswerResults ((j, res) :: rest) df aP succ =
          applyAnswerResults rest df aP succ := by
        simp [applyAnswerResults, hs]
      rw [hstep]
      exact ih df aP succ (fun r hr => hfail r (List.mem_cons_of_mem _ hr))

theorem applyAnswerResults_progress_mono :
    ∀ (results : List (Nat × AnswerFetchResult)) (df : List Row)
      (aP : Finset Nat) (succ : Nat),
      aP ⊆ (applyAnswerResults results df aP succ).2.1 := by
  intro results
  induction results with
  | nil => intro df aP succ; exact Finset.Subset.refl aP
  | cons p rest ih =>
    intro df aP succ
    obtain ⟨j, res⟩ := p
    by_cases hs : res.success
    · have := ih (setRowAnswer df j res.ai_answer res.reference) (insert j aP) (succ + 1)
      have hsub : aP ⊆ insert j aP := Finset.subset_insert j aP
      simpa [applyAnswerResults, hs] using hsub.trans this
    · simpa [applyAnswerResults, hs] using ih df aP succ

theorem applyAnswerResults_success_marked (idx : Nat) (res : AnswerFetchResult) :
    ∀ (results : List (Nat × AnswerFetchResult)) (df : List Row)
      (aP : Finset Nat) (succ : Nat),
      (idx, res) ∈ results → res.success = true →
      idx ∈ (applyAnswerResults results df aP succ).2.1 := by
  intro results
  induction results with
  | nil => intro df aP succ h _; exact absurd h (List.not_mem_nil _)
  | cons p rest ih =>
    intro df aP succ hmem hs
    obtain ⟨j, r⟩ := p
    rcases List.mem_cons.mp hmem with heq | htail
    · cases heq
      have hins : idx ∈ insert idx aP := Finset.mem_insert_self idx aP
      have := applyAnswerResults_progress_mono rest
        (setRowAnswer df idx res.ai_answer res.reference) (insert idx aP) (succ + 1) hins
      simpa [applyAnswerResults, hs] using this
    · by_cases hjs : r.success
      · have := ih (setRowAnswer df j r.ai_answer r.reference) (insert j aP) (succ + 1)
          htail hs
        simpa [applyAnswerResults, hjs] using this
      · have := ih df aP succ htail hs
        simpa [applyAnswerResults, hjs] using this

/-- Claim C6.  A failed fetch for a record leaves that record untouched in the
dataframe and does not mark its index done, while successful fetches for
other records are written and marked; concretely, with three questions
where the fetch fails only for the middle record, the final progress set
is the other two indices, the middle answer stays empty, and the next
run builds exactly one answer task, for the middle record. -/
theorem C6_failure_isolation :
    (∀ (results : List (Nat × AnswerFetchResult)) (df : List Row)
        (aP : Finset Nat) (succ idx : Nat),
      (∀ res, (idx, res) ∈ results → res.success = false) →
      ((applyAnswerResults results df aP succ).1[idx]? = df[idx]? ∧
        (idx ∉ aP → idx ∉ (applyAnswerResults results df aP succ).2.1))) ∧
    (∀ (results : List (Nat × AnswerFetchResult)) (df : List Row)
        (aP : Finset Nat) (succ idx : Nat) (res : AnswerFetchResult),
      (idx, res) ∈ results → res.success = true →
      idx ∈ (applyAnswerResults results df aP succ).2.1) ∧
    (applyAnswerResults
        [(0, ⟨"ans1", "ref1", true, none⟩), (1, queryAnswerFailure "请求超时"),
         (2, ⟨"ans3", "ref3", true, none⟩)]
        [⟨some "q1", none, none, none⟩, ⟨some "q2", none, none, none⟩,
         ⟨some "q3", none, none, none⟩] ∅ 0 =
      ([⟨some "q1", some "ans1", some "ref1", none⟩, ⟨some "q2", none, none, none⟩,
        ⟨some "q3", some "ans3", some "ref3", none⟩], {0, 2}, 2)) ∧
    ((buildTasks
        [⟨some "q1", some "ans1", some "ref1", none⟩, ⟨some "q2", none, none, none⟩,
         ⟨some "q3", some "ans3", some "ref3", none⟩] 0 {0, 2} ∅).1 =
      [(1, "q2")]) := by
  refine ⟨?_, ?_, by decide, by decide⟩
  · intro results df aP succ idx hfail
    exact applyAnswerResults_untouched idx results df aP succ hfail
  · intro results df aP succ idx res hmem hs
    exact applyAnswerResults_success_marked idx res results df aP succ hmem hs

/-- Witness for C6: the general parts applied at the concrete scenario,
with the hypotheses discharged by computation. -/
theorem C6_witness :
    ((applyAnswerResults
        [(0, ⟨"ans1", "ref1", true, none⟩), (1, queryAnswerFailure "请求超时"),
         (2, ⟨"ans3", "ref3", true, none⟩)]
        [⟨some "q1", none, none, none⟩, ⟨some "q2", none, none, none⟩,
         ⟨some "q3", none, none, none⟩] ∅ 0).1[1]? =
      some ⟨some "q2", none, none, none⟩) ∧
    ((1 : Nat) ∉ (applyAnswerResults
        [(0, ⟨"ans1", "ref1", true, none⟩), (1, queryAnswerFailure "请求超时"),
         (2, ⟨"ans3", "ref3", true, none⟩)]
        [⟨some "q1", none, none, none⟩, ⟨some "q2", none, none, none⟩,
         ⟨some "q3", none, none, none⟩] ∅ 0).2.1) ∧
    ((2 : Nat) ∈ (applyAnswerResults
        [(0, ⟨"ans1", "ref1", true, none⟩), (1, queryAnswerFailure "请求超时"),
         (2, ⟨"ans3", "ref3", true, none⟩)]
        [⟨some "q1", none, none, none⟩, ⟨some "q2", none, none, none⟩,
         ⟨some "q3", none, none, none⟩] ∅ 0).2.1) := by
  have h1 := C6_failure_isolation.1
    [(0, ⟨"ans1", "ref1", true, none⟩), (1, queryAnswerFailure "请求超时"),
     (2, ⟨"ans3", "ref3", true, none⟩)]
    [⟨some "q1", none, none, none⟩, ⟨some "q2", none, none, none⟩,
     ⟨some "q3", none, none, none⟩] ∅ 0 1 (by
      intro res hmem
      rcases List.mem_cons.mp hmem with h | hmem2
      · have h1 : (1 : Nat) = 0 := congrArg Prod.fst h
        exact absurd h1 (by decide)
      · rcases List.mem_cons.mp hmem2 with h | hmem3
        · rw [show res = queryAnswerFailure "请求超时" from congrArg Prod.snd h]
          rfl
        · rcases List.mem_cons.mp hmem3 with h | hmem4
          · have h1 : (1 : Nat) = 2 := congrArg Prod.fst h
            exact absurd h1 (by decide)
          · exact absurd hmem4 (List.not_mem_nil _))
  have h2 := C6_failure_isolation.2.1
    [(0, ⟨"ans1", "ref1", true, none⟩), (1, queryAnswerFailure "请求超时"),
     (2, ⟨"ans3", "ref3", true, none⟩)]
    [⟨some "q1", none, none, none⟩, ⟨some "q2", none, none, none⟩,
     ⟨some "q3", none, none, none⟩] ∅ 0 2 ⟨"ans3", "ref3", true, none⟩
    (by decide) (by decide)
  exact ⟨h1.1, h1.2 (by decide), h2⟩

/-! ## Claim C1: the merge-on-load overwrites with checkpoint data -/

theorem mergeStep_getElem_self (df : List Row) (idx : Nat) (s : Row)
    (aP cP : Finset Nat) :
    (mergeStep df idx s aP cP).1[idx]? = (df[idx]?).map (fun r => mergeRowFn r s) := by
  by_cases h : idx < df.length
  · have hv : df[idx]? = some df[idx] := List.getElem?_eq_getElem h
    by_cases ha : cellBlank s.answer <;> by_cases hc : cellBlank s.contexts <;>
      simp [mergeStep, mergeRowFn, h, ha, hc, List.getElem?_set_self h, hv]
  · have hv : df[idx]? = none := by
      rw [List.getElem?_eq_none_iff]
      omega
    simp [mergeStep, h, hv]

theorem mergeStep_getElem_ne (df : List Row) (idx j : Nat) (s : Row)
    (aP cP : Finset Nat) (hne : j ≠ idx) :
    (mergeStep df idx s aP cP).1[j]? = df[j]? := by
  by_cases h : idx < df.length
  · simp [mergeStep, h, List.getElem?_set_ne (Ne.symm hne)]
  · simp [mergeStep, h]

theorem mergeLoop_untouched :
    ∀ (saved : List Row) (idx : Nat) (st : List Row × Finset Nat × Finset Nat)
      (j : Nat), j < idx → (mergeLoop saved idx st).1[j]? = st.1[j]? := by
  intro saved
  induction saved with
  | nil => intro idx st j _; rfl
  | cons s rest ih =>
    intro idx st j hj
    show (mergeLoop rest (idx + 1) (mergeStep st.1 idx s st.2.1 st.2.2)).1[j]? = st.1[j]?
    rw [ih (idx + 1) _ j (by omega)]
    exact mergeStep_getElem_ne st.1 idx j s st.2.1 st.2.2 (by omega)

theorem mergeLoop_getElem :
    ∀ (saved : List Row) (idx k : Nat) (df : List Row) (aP cP : Finset Nat),
      (mergeLoop saved idx (df, aP, cP)).1[idx + k]? =
        (match saved[k]? with
         | some s => (df[idx + k]?).map (fun r => mergeRowFn r s)
         | none => df[idx + k]?) := by
  intro saved
  induction saved with
  | nil => intro idx k df aP cP; simp [mergeLoop]
  | cons s rest ih =>
    intro idx k df aP cP
    show (mergeLoop rest (idx + 1) (mergeStep df idx s aP cP)).1[idx + k]? = _
    match k with
    | 0 =>
      have huntouched := mergeLoop_untouched rest (idx + 1)
        (mergeStep df idx s aP cP) idx (by omega)
      rw [show idx + 0 = idx from by omega, huntouched]
      simpa using mergeStep_getElem_self df idx s aP cP
    | k' + 1 =>
      have hstep : (mergeStep df idx s aP cP) =
          ((mergeStep df idx s aP cP).1, (mergeStep df idx s aP cP).2.1,
            (mergeStep df idx s aP cP).2.2) := rfl
      rw [hstep]
      have hrec := ih (idx + 1) k' (mergeStep df idx s aP cP).1
        (mergeStep df idx s aP cP).2.1 (mergeStep df idx s aP cP).2.2
      rw [show idx + (k' + 1) = idx + 1 + k' from by omega, hrec]
      have hne : (mergeStep df idx s aP cP).1[idx + 1 + k']? = df[idx + 1 + k']? :=
        mergeStep_getElem_ne df idx (idx + 1 + k') s aP cP (by omega)
      rw [hne]
      simp

/-- Counterexample for claim C1.  The claim asserts the merge never overwrites a
non-blank fresh field with checkpoint data; at this input the fresh answer
is non-blank yet the merged answer is the checkpoint answer, not the
fresh one (the source copies the checkpoint field whenever the checkpoint
field is non-blank, regardless of the fresh value). -/
theorem C1_counterexample :
    cellBlank (some "freshA") = false ∧
    ((mergeCheckpoint [⟨some "q", some "freshA", some "freshR", some "freshC"⟩]
        [⟨some "q", some "ckptA", some "ckptR", some "ckptC"⟩] ∅ ∅).1[0]?).map
      Row.answer = some (some "ckptA") ∧
    (some "ckptA" : Cell) ≠ some "freshA" := by
  refine ⟨by decide, by decide, by decide⟩

/-- Claim C1 as amended.  For every record index present in both the fresh
dataframe and the checkpoint, the merged answer (with its reference
document) equals the checkpoint value whenever the checkpoint answer is
non-blank and the fresh value only otherwise; likewise the contexts field
follows the checkpoint whenever the checkpoint contexts are non-blank;
the question is never changed. -/
theorem C1_merge_checkpoint_wins (df saved : List Row) (aP cP : Finset Nat)
    (i : Nat) (r s : Row) (hr : df[i]? = some r) (hs : saved[i]? = some s) :
    (mergeCheckpoint df saved aP cP).1[i]? = some (mergeRowFn r s) ∧
    (mergeRowFn r s).answer = (if cellBlank s.answer then r.answer else s.answer) ∧
    (mergeRowFn r s).reference =
      (if cellBlank s.answer then r.reference else s.reference) ∧
    (mergeRowFn r s).contexts =
      (if cellBlank s.contexts then r.contexts else s.contexts) ∧
    (mergeRowFn r s).question = r.question := by
  refine ⟨?_, ?_, ?_, ?_, ?_⟩
  · have := mergeLoop_getElem saved 0 i df aP cP
    rw [show (0 : Nat) + i = i from by omega] at this
    unfold mergeCheckpoint
    rw [this, hs, hr]
    rfl
  all_goals
    by_cases ha : cellBlank s.answer <;> by_cases hc : cellBlank s.contexts <;>
      simp [mergeRowFn, ha, hc]

/-- Witness for C1 amended at a concrete pair of dataframes. -/
theorem C1_witness :
    (mergeCheckpoint [⟨some "q", some "freshA", some "freshR", some "freshC"⟩]
        [⟨some "q", none, some "ckptR", some "ckptC"⟩] ∅ ∅).1[0]? =
      some (mergeRowFn ⟨some "q", some "freshA", some "freshR", some "freshC"⟩
        ⟨some "q", none, some "ckptR", some "ckptC"⟩) :=
  (C1_merge_checkpoint_wins
    [⟨some "q", some "freshA", some "freshR", some "freshC"⟩]
    [⟨some "q", none, some "ckptR", some "ckptC"⟩] ∅ ∅ 0
    ⟨some "q", some "freshA", some "freshR", some "freshC"⟩
    ⟨some "q", none, some "ckptR", some "ckptC"⟩ (by decide) (by decide)).1

/-! ## Claim C10: passage extraction always returns a non-empty list,
but not always a non-blank passage -/

theorem extractContexts_ne_nil (c : Cell) : extractContexts c ≠ [] := by
  unfold extractContexts
  split
  · simp
  · dsimp only
    split
    · split
      · rename_i hne2
        exact hne2
      · simp
    · split
      · rename_i hne2
        exact hne2
      · simp

/-- Counterexample for claim C10.  The claim asserts every extraction yields at
least one non-blank passage, making the zero-non-blank-passage skip
branch of align unreachable for non-blank blobs; this non-blank input is
split into a single chunk that the header-marker removal empties, so the
returned list is a single blank passage and align takes the supposedly
unreachable skip branch. -/
theorem C10_counterexample :
    extractContexts (some "[0123456789]:") = [""] ∧
    cellBlank (some "[0123456789]:") = false ∧
    alignDataForEvaluation [⟨some "q1", some "a1", none, some "[0123456789]:"⟩] =
      ([], 1) := by
  refine ⟨by decide, by decide, by decide⟩

/-- Claim C10 as amended.  The passage extraction always returns a non-empty list,
falling back to sentinel placeholders when nothing was extracted, but the
returned passages can all be blank, so the align skip branch for a blob
that decodes to zero non-blank passages is reachable; sentinel
placeholder text is accepted as a valid scoring context. -/
theorem C10_extraction_nonempty_but_blank_possible :
    (∀ c : Cell, extractContexts c ≠ []) ∧
    ((extractContexts (some "[0123456789]:")).all (fun p => pyStrip p = "") = true) ∧
    alignDataForEvaluation [⟨some "q1", some "a1", none, some "short"⟩] =
      ([⟨"q1", "a1", ["参考文档信息不明确"], "a1"⟩], 0) := by
  refine ⟨extractContexts_ne_nil, by decide, by decide⟩

/-! ## Claim C5: the alignment filter characterization -/

theorem align_cons (row : Row) (rest : List Row) :
    alignDataForEvaluation (row :: rest) =
      (if rowSkipped row then
        ((alignDataForEvaluation rest).1, (alignDataForEvaluation rest).2 + 1)
      else (rowToAligned row :: (alignDataForEvaluation rest).1,
            (alignDataForEvaluation rest).2)) := by
  by_cases hq : cellBlank row.question
  · have hs : rowSkipped row = true := by simp [rowSkipped, hq]
    simp [alignDataForEvaluation, hq, hs]
  · by_cases hbig : pyStrip (cellStr row.answer) ≠ "" ∧
        pyStrip (cellStr row.contexts) ≠ "" ∧
        pyStrip (cellStr row.answer) ≠ "nan" ∧
        pyStrip (cellStr row.contexts) ≠ "nan"
    · by_cases hany : (extractContexts (some (pyStrip (cellStr row.contexts)))).any
          (fun ctx => pyStrip ctx ≠ "") = true
      · have hne : extractContexts (some (pyStrip (cellStr row.contexts))) ≠ [] := by
          intro h
          rw [h] at hany
          simp at hany
        have hs : rowSkipped row = false := by
          simp only [rowSkipped, hany, Bool.not_true, Bool.or_false]
          simp [hq, hbig.1, hbig.2.1, hbig.2.2.1, hbig.2.2.2]
        simp [alignDataForEvaluation, hq, hbig, hne, hany, hs, rowToAligned]
        rcases List.any_eq_true.mp hany with ⟨x, hx, hpx⟩
        exact ⟨x, hx, by simpa using hpx⟩
      · have hanyf : (extractContexts (some (pyStrip (cellStr row.contexts)))).any
            (fun ctx => pyStrip ctx ≠ "") = false := by
          simpa using hany
        have hs : rowSkipped row = true := by
          unfold rowSkipped
          rw [hanyf]
          simp
        have hcond : ¬ (extractContexts (some (pyStrip (cellStr row.contexts))) ≠ [] ∧
            (extractContexts (some (pyStrip (cellStr row.contexts)))).any
              (fun ctx => pyStrip ctx ≠ "") = true) := by
          intro hgot
          exact hany hgot.2
        simp [alignDataForEvaluation, hq, hbig, hcond, hs]
        intro _ x hx
        have h6 := List.any_eq_false.mp hanyf x hx
        simpa using h6
    · have hs : rowSkipped row = true := by
        simp only [rowSkipped]
        push_neg at hbig
        by_cases h1 : pyStrip (cellStr row.answer) = ""
        · simp [h1]
        · by_cases h2 : pyStrip (cellStr row.contexts) = ""
          · simp [h2]
          · by_cases h3 : pyStrip (cellStr row.answer) = "nan"
            · simp [h3]
            · have h4 := hbig h1 h2 h3
              simp [h4]
      simp [alignDataForEvaluation, hq, hbig, hs]

/-- Counterexample for claim C5.  A record whose question and answer are fine and
whose contexts blob is the non-blank literal string nan decodes to a
non-blank sentinel passage, so the claim classifies it usable; the filter
nevertheless skips it (the source also treats the string nan as the unset
sentinel for the contexts blob, which the claim states only for the
answer). -/
theorem C5_counterexample :
    cellBlank (some "q1") = false ∧
    pyStrip (cellStr (some "a1" : Cell)) ≠ "" ∧
    pyStrip (cellStr (some "a1" : Cell)) ≠ "nan" ∧
    pyStrip (cellStr (some "nan" : Cell)) ≠ "" ∧
    (extractContexts (some (pyStrip (cellStr (some "nan" : Cell))))).any
      (fun ctx => pyStrip ctx ≠ "") = true ∧
    alignDataForEvaluation [⟨some "q1", some "a1", none, some "nan"⟩] = ([], 1) := by
  refine ⟨by decide, by decide, by decide, by decide, by decide, by decide⟩

/-- Claim C5 as amended.  The filter skips a record iff its question is blank, or
its answer is blank or the unset sentinel, or its contexts blob is blank
or the unset sentinel, or the blob decodes to zero non-blank passages;
kept records are emitted in input order with groundTruth equal to the
answer, and the skipped count counts exactly the skipped records; the
three-record scenario yields one usable record and two skipped. -/
theorem C5_align_characterization :
    (∀ rows : List Row,
      (alignDataForEvaluation rows).1 =
        rows.filterMap
          (fun row => if rowSkipped row then none else some (rowToAligned row)) ∧
      (alignDataForEvaluation rows).2 =
        (rows.filter (fun row => rowSkipped row)).length ∧
      ∀ ar ∈ (alignDataForEvaluation rows).1, ar.ground_truth = ar.answer) ∧
    alignDataForEvaluation
      [⟨some "q1", some "a1", some "r1", some "this is a long enough context"⟩,
       ⟨some "q2", none, none, some "this is a long enough context"⟩,
       ⟨some "q3", some "a3", none, none⟩] =
      ([⟨"q1", "a1", ["this is a long enough context"], "a1"⟩], 2) := by
  constructor
  · intro rows
    have hmain : (alignDataForEvaluation rows).1 =
        rows.filterMap
          (fun row => if rowSkipped row then none else some (rowToAligned row)) ∧
        (alignDataForEvaluation rows).2 =
          (rows.filter (fun row => rowSkipped row)).length := by
      induction rows with
      | nil => exact ⟨rfl, rfl⟩
      | cons row rest ih =>
        rw [align_cons row rest]
        by_cases hs : rowSkipped row
        · simp [hs, List.filterMap_cons, List.filter_cons, ih.1, ih.2]
        · simp [hs, List.filterMap_cons, List.filter_cons, ih.1, ih.2]
    refine ⟨hmain.1, hmain.2, ?_⟩
    intro ar har
    rw [hmain.1] at har
    rcases List.mem_filterMap.mp har with ⟨row, _, hrow⟩
    split at hrow
    · exact absurd hrow (by simp)
    · have : rowToAligned row = ar := by
        simpa using hrow
      rw [show ar = rowToAligned row from this.symm]
      rfl
  · decide

/-- Witness for C5 amended: the groundTruth equation applied to the one
usable record of the three-record scenario. -/
theorem C5_witness :
    (⟨"q1", "a1", ["this is a long enough context"], "a1"⟩ : AlignedRecord).ground_truth =
      (⟨"q1", "a1", ["this is a long enough context"], "a1"⟩ : AlignedRecord).answer :=
  (C5_align_characterization.1
    [⟨some "q1", some "a1", some "r1", some "this is a long enough context"⟩,
     ⟨some "q2", none, none, some "this is a long enough context"⟩,
     ⟨some "q3", some "a3", none, none⟩]).2.2
    ⟨"q1", "a1", ["this is a long enough context"], "a1"⟩ (by decide)

end RagasEval
